import Mathlib

/-!
Verification development for the vucar remote-execution orchestrator
(`src/backends/github.py`, `src/core/security.py`, `src/core/video.py`).

The Python code is shallowly embedded: every external effect (subprocess
invocations of `gh`, `git`, `curl`, `gpg`, file-system operations, network
polling) is modelled by an outcome supplied in a "world" argument, and each
embedded operation returns its Python return value together with the ordered
trace of effect events it performed.  Machine integers are modelled by `Nat`
(Python integers are unbounded, so no wrap-around is needed).
-/

namespace Vucar

/-! ## Size thresholds and the upload strategy selector
(`github.py` lines 25-26 and the size branch of `GitHubBackend.execute`,
lines 440-450). -/

def SIZE_THRESHOLD_GIB : Nat := 2147483648

def SIZE_THRESHOLD_GB : Nat := 4294967296

/-- The three possible decisions of the size branch in `execute`:
`file_size < SIZE_THRESHOLD_GIB` selects the GitHub-release channel,
`file_size < SIZE_THRESHOLD_GB` selects the temp.sh direct-link channel,
and anything larger is rejected (`PayloadTooLarge`). -/
inductive UploadChannel
  | releaseAsset
  | directLink
  | payloadTooLarge
deriving DecidableEq, Repr

/-- The selector itself, mirroring the `if file_size < SIZE_THRESHOLD_GIB /
elif file_size < SIZE_THRESHOLD_GB / else` chain of `execute`. -/
def selectUploadChannel (size : Nat) : UploadChannel :=
  if size < SIZE_THRESHOLD_GIB then .releaseAsset
  else if size < SIZE_THRESHOLD_GB then .directLink
  else .payloadTooLarge

/-! ## Job locator (`GitHubBackend._monitor_workflow_run`, phase 1)

Each locate attempt runs `gh api .../runs?... --jq '.workflow_runs[] |
select(.name | contains(uuid)) | .id'`.  A fetch outcome is either a listing
of workflow-run descriptors (returncode 0) or a transient error (non-zero
returncode, or an exception caught by the `except Exception` arm).  The jq
filter keeps the ids of the runs whose name contains the uuid, in listing
order, and the Python takes the first output line
(`result.stdout.strip().split('\n')[0]`). -/

structure RunDescriptor where
  name : String
  id : String
deriving DecidableEq, Repr

/-- `needle` occurs as a contiguous sublist of `hay`. -/
def listContains (hay needle : List Char) : Bool :=
  match hay with
  | [] => needle.isEmpty
  | c :: rest => needle.isPrefixOf (c :: rest) || listContains rest needle

/-- jq `.name | contains(uuid)`: substring containment. -/
def nameContains (name uuid : String) : Bool :=
  listContains name.toList uuid.toList

/-- The id selected from one listing: the id of the first descriptor whose
name contains the uuid, if any (first line of the jq output). -/
def findMatchingId (uuid : String) (runs : List RunDescriptor) : Option String :=
  (runs.find? fun r => nameContains r.name uuid).map (fun r => r.id)

def max_find_attempts : Nat := 24

/-- The locate loop, from a given 1-based attempt number with a given number
of remaining attempts.  `fetch n` is the outcome of the listing call made on
attempt `n` (`none` = transient error or non-zero returncode, which the code
treats like "no match yet": sleep and try again).  Returns the bound run id
(if any) together with the number of listing calls actually performed. -/
def locateFrom (uuid : String) (fetch : Nat → Option (List RunDescriptor)) :
    Nat → Nat → Option String × Nat
  | _, 0 => (none, 0)
  | attempt, remaining + 1 =>
    match fetch attempt with
    | some runs =>
      match findMatchingId uuid runs with
      | some id => (some id, 1)
      | none =>
        let r := locateFrom uuid fetch (attempt + 1) remaining
        (r.1, r.2 + 1)
    | none =>
      let r := locateFrom uuid fetch (attempt + 1) remaining
      (r.1, r.2 + 1)

/-- Phase 1 of `_monitor_workflow_run`: up to `max_find_attempts` listing
attempts; `none` as first component means the `if not run_id` branch fired
(locate timeout, fatal). -/
def locateRun (uuid : String) (fetch : Nat → Option (List RunDescriptor)) :
    Option String × Nat :=
  locateFrom uuid fetch 1 max_find_attempts

/-! ## Status poller (`GitHubBackend._monitor_workflow_run`, phase 2)

Each poll runs `gh run view <id> --json status,conclusion,jobs`.  A fetch is
either a transient error (`subprocess.CalledProcessError` or
`json.JSONDecodeError`, both caught and absorbed) or a snapshot carrying the
`status` and `conclusion` fields.  The loop is `while True`: it only ever
returns on a snapshot with `status == "completed"`, returning the run id when
`conclusion == "success"` and `None` otherwise. -/

inductive StatusFetch
  | transientError
  | snapshot (status : String) (conclusion : String)
deriving DecidableEq, Repr

/-- Result of running the polling loop against a finite prefix of fetch
outcomes: `none` means the loop is still polling after consuming them all
(no definitive snapshot yet); `some r` means the loop returned with `r`
(`some runId` on success, `none` on remote failure). -/
def pollStatus (runId : String) : List StatusFetch → Option (Option String)
  | [] => none
  | .transientError :: rest => pollStatus runId rest
  | .snapshot status conclusion :: rest =>
    if status = "completed" then
      some (if conclusion = "success" then some runId else none)
    else pollStatus runId rest

/-! ## Outcomes of one subprocess invocation

`check=True` subprocess calls either succeed, raise
`subprocess.CalledProcessError` (non-zero exit), or raise `FileNotFoundError`
(the executable is absent from PATH). -/

inductive CmdOutcome
  | ok
  | fails
  | missing
deriving DecidableEq, Repr

/-! ## Artifact retriever (`GitHubBackend._download_artifact`)

Up to `max_retries` attempts of `gh run download`; before each attempt the
target file `<base>.gpg` is unlinked (`missing_ok=True`); on
`CalledProcessError` with attempts remaining the loop sleeps `delay` seconds
and doubles `delay`; exhausting the attempts, or a `FileNotFoundError`,
returns `None`. -/

inductive DlEvent
  | unlinkTarget
  | downloadAttempt (attempt : Nat)
  | sleep (seconds : Nat)
deriving DecidableEq, Repr

def max_retries : Nat := 3

def base_delay : Nat := 5

/-- `gh run download` writes the artifact next to cwd under this name. -/
def downloadTarget (outputFilenameBase : String) : String :=
  outputFilenameBase ++ ".gpg"

/-- The retry loop from a given 1-based attempt number.  `outcome n` is the
result of the `gh run download` invocation on attempt `n`. -/
def downloadFrom (outcome : Nat → CmdOutcome) :
    Nat → Nat → Nat → Option Unit × List DlEvent
  | _, _, 0 => (none, [])
  | attempt, delay, remaining + 1 =>
    let evs := [DlEvent.unlinkTarget, DlEvent.downloadAttempt attempt]
    match outcome attempt with
    | .ok => (some (), evs)
    | .missing => (none, evs)
    | .fails =>
      if remaining = 0 then (none, evs)
      else
        let r := downloadFrom outcome (attempt + 1) (delay * 2) remaining
        (r.1, evs ++ DlEvent.sleep delay :: r.2)

/-- `_download_artifact`: result is the path of the downloaded encrypted file
on success, `None` on failure, together with the trace of effects. -/
def downloadArtifact (outputFilenameBase : String) (outcome : Nat → CmdOutcome) :
    Option String × List DlEvent :=
  let r := downloadFrom outcome 1 base_delay max_retries
  (r.1.map fun _ => downloadTarget outputFilenameBase, r.2)

/-- The seconds of the sleep events of a download trace, in order. -/
def sleepDelays (tr : List DlEvent) : List Nat :=
  tr.filterMap fun e =>
    match e with
    | .sleep s => some s
    | _ => none

/-- Number of download invocations recorded in a trace. -/
def downloadCount (tr : List DlEvent) : Nat :=
  (tr.filter fun e =>
    match e with
    | .downloadAttempt _ => true
    | _ => false).length

/-- Every `downloadAttempt` event is immediately preceded by an
`unlinkTarget` event. -/
def deleteBeforeEachDownload : List DlEvent → Bool
  | [] => true
  | .unlinkTarget :: .downloadAttempt _ :: rest => deleteBeforeEachDownload rest
  | .downloadAttempt _ :: _ => false
  | _ :: rest => deleteBeforeEachDownload rest

/-! ## Decryption (`security.decrypt_file`)

One `gpg --decrypt` invocation with `check=True`; the `finally` block unlinks
the encrypted input (`missing_ok=True`) on every path — success,
`CalledProcessError` and `FileNotFoundError` alike.  The file system is
modelled as the list of existing paths. -/

def decrypt_file (encrypted decrypted : String) (outcome : CmdOutcome)
    (fs : List String) : Option String × List String :=
  let afterRun : List String :=
    match outcome with
    | .ok => if decrypted ∈ fs then fs else decrypted :: fs
    | _ => fs
  let result : Option String :=
    match outcome with
    | .ok => some decrypted
    | _ => none
  (result, afterRun.filter fun p => p ≠ encrypted)

/-! ## Release-asset upload (`GitHubBackend._upload_via_github_release`)

Four `check=True` subprocess steps in order: `git tag`, `git push origin
<tag>`, `gh release create`, `gh release upload`.  A `CalledProcessError`
from any of them is caught by a handler that runs `git tag -d <tag>` and
`git push --delete origin <tag>` (both without `check`) and returns `None`;
a `FileNotFoundError` returns `None` without those two cleanup commands. -/

inductive UpEvent
  | gitTagCreate (tag : String)
  | gitTagPush (tag : String)
  | releaseCreate (tag : String)
  | assetUpload (tag : String)
  | gitTagDeleteLocal (tag : String)
  | gitTagDeleteRemote (tag : String)
deriving DecidableEq, Repr

def uploadViaGithubRelease (tag : String)
    (tagCreate tagPush releaseCreate assetUpload : CmdOutcome) :
    Option String × List UpEvent :=
  match tagCreate with
  | .missing => (none, [.gitTagCreate tag])
  | .fails =>
    (none, [.gitTagCreate tag, .gitTagDeleteLocal tag, .gitTagDeleteRemote tag])
  | .ok =>
    match tagPush with
    | .missing => (none, [.gitTagCreate tag, .gitTagPush tag])
    | .fails =>
      (none, [.gitTagCreate tag, .gitTagPush tag,
              .gitTagDeleteLocal tag, .gitTagDeleteRemote tag])
    | .ok =>
      match releaseCreate with
      | .missing => (none, [.gitTagCreate tag, .gitTagPush tag, .releaseCreate tag])
      | .fails =>
        (none, [.gitTagCreate tag, .gitTagPush tag, .releaseCreate tag,
                .gitTagDeleteLocal tag, .gitTagDeleteRemote tag])
      | .ok =>
        match assetUpload with
        | .missing =>
          (none, [.gitTagCreate tag, .gitTagPush tag, .releaseCreate tag,
                  .assetUpload tag])
        | .fails =>
          (none, [.gitTagCreate tag, .gitTagPush tag, .releaseCreate tag,
                  .assetUpload tag, .gitTagDeleteLocal tag, .gitTagDeleteRemote tag])
        | .ok =>
          (some tag, [.gitTagCreate tag, .gitTagPush tag, .releaseCreate tag,
                      .assetUpload tag])

/-! ## Workflow trigger (`GitHubBackend._trigger_workflow_run`)

If neither a release tag nor an upload url is supplied the method returns
`False` before any remote call; otherwise it makes exactly one `gh workflow
run` dispatch call, returning `True` on success and `False` on
`CalledProcessError` or `FileNotFoundError` — there is no retry. -/

inductive TrEvent
  | dispatch
deriving DecidableEq, Repr

def triggerWorkflowRun (hasReleaseTag hasUploadUrl : Bool)
    (dispatchOutcome : CmdOutcome) : Bool × List TrEvent :=
  if hasReleaseTag || hasUploadUrl then
    match dispatchOutcome with
    | .ok => (true, [.dispatch])
    | .fails => (false, [.dispatch])
    | .missing => (false, [.dispatch])
  else
    (false, [])

/-! ## Paths (Python `pathlib`)

`execute` builds the decrypted output path as
`video_path.with_name(f"{video_path.stem}!{video_path.suffix}")`.  A path is
modelled as parent-directory components plus a final name; `stem` and
`suffix` follow `pathlib.PurePath`: with `i = name.rfind('.')`, the suffix is
`name[i:]` when `0 < i < len(name) - 1` and empty otherwise, and the stem is
the rest of the name. -/

structure VPath where
  dir : List String
  name : String
deriving DecidableEq, Repr

/-- Index of the last occurrence of `c` in `cs` (Python `str.rfind`, with
`none` for "not found"). -/
def rfindIdx (cs : List Char) (c : Char) : Option Nat :=
  match cs with
  | [] => none
  | x :: xs =>
    match rfindIdx xs c with
    | some i => some (i + 1)
    | none => if x = c then some 0 else none

def pySuffix (name : String) : String :=
  let cs := name.toList
  match rfindIdx cs '.' with
  | none => ""
  | some i => if 0 < i ∧ i + 1 < cs.length then String.mk (cs.drop i) else ""

def pyStem (name : String) : String :=
  let cs := name.toList
  match rfindIdx cs '.' with
  | none => name
  | some i => if 0 < i ∧ i + 1 < cs.length then String.mk (cs.take i) else name

def withName (p : VPath) (n : String) : VPath :=
  ⟨p.dir, n⟩

/-- `f"{video_path.stem}!{video_path.suffix}"`. -/
def bangName (name : String) : String :=
  pyStem name ++ "!" ++ pySuffix name

/-! ## Orchestrator (`GitHubBackend.execute`)

The phases run strictly in order inside a `try`: sanitize+encrypt, size
analysis and upload, workflow trigger, monitor (locator + poller), artifact
download, decrypt, metadata restore.  Any phase failure `return None`s; any
exception reaching the method body (e.g. a `FileNotFoundError` escaping the
polling loop of `_monitor_workflow_run`, whose phase 2 only catches
`CalledProcessError` and `JSONDecodeError`) is absorbed by `except
Exception` into `return None`.  The `finally` block always runs: it unlinks
the local encrypted temp file if it exists, and, when `release_tag` was
bound, calls `_cleanup_github_release`, which attempts the `gh release
delete` and then the `git push --delete origin <tag>` commands, each in its
own `try` that downgrades a `CalledProcessError` to a warning. -/

structure ExecWorld where
  /-- `sanitize_and_encrypt_video` returned `True`. -/
  encryptOk : Bool
  /-- The local encrypted temp file exists when the `finally` block runs. -/
  encryptedFileExists : Bool
  /-- `get_file_size` of the encrypted payload, in bytes. -/
  payloadSize : Nat
  /-- Result of `_upload_via_github_release` when that channel is taken. -/
  releaseUploadTag : Option String
  /-- Result of `_upload_via_tempsh` when that channel is taken. -/
  tempshUrl : Option String
  /-- `_trigger_workflow_run` returned `True`. -/
  triggerOk : Bool
  /-- An exception escapes `_monitor_workflow_run` into `except Exception`. -/
  monitorRaises : Bool
  /-- Result of `_monitor_workflow_run` when it returns normally. -/
  monitorRunId : Option String
  /-- `_download_artifact` returned a path. -/
  downloadOk : Bool
  /-- `decrypt_file` returned a path. -/
  decryptOk : Bool
  /-- `restore_metadata` returned `True` (its result is ignored). -/
  restoreOk : Bool
  /-- `gh release delete` in `_cleanup_github_release` succeeded. -/
  deleteReleaseOk : Bool
  /-- `git push --delete origin <tag>` in `_cleanup_github_release`
  succeeded. -/
  deleteTagOk : Bool
deriving DecidableEq, Repr

inductive Ev
  | sanitizeEncrypt
  | uploadRelease
  | uploadTempsh
  | trigger
  | monitor
  | download
  | decrypt
  | restoreMeta (ok : Bool)
  | unlinkEncrypted
  | deleteRelease (tag : String) (ok : Bool)
  | deleteTagRemote (tag : String) (ok : Bool)
deriving DecidableEq, Repr

/-- `_cleanup_github_release`: both deletions are always attempted, in
order, whatever their outcomes. -/
def cleanupGithubRelease (w : ExecWorld) (tag : String) : List Ev :=
  [Ev.deleteRelease tag w.deleteReleaseOk, Ev.deleteTagRemote tag w.deleteTagOk]

/-- The `finally` block of `execute`. -/
def finallyEvents (w : ExecWorld) (releaseTag : Option String) : List Ev :=
  (if w.encryptedFileExists then [Ev.unlinkEncrypted] else []) ++
  (match releaseTag with
   | some tag => cleanupGithubRelease w tag
   | none => [])

/-- Phases 3 onward of `execute`, entered with the upload phase done and
`release_tag` bound to `releaseTag` (`none` when the temp.sh channel was
used). -/
def executeAfterUpload (w : ExecWorld) (input : VPath) (pre : List Ev)
    (releaseTag : Option String) : Option VPath × List Ev :=
  if !w.triggerOk then
    (none, pre ++ [Ev.trigger] ++ finallyEvents w releaseTag)
  else if w.monitorRaises then
    (none, pre ++ [Ev.trigger, Ev.monitor] ++ finallyEvents w releaseTag)
  else
    match w.monitorRunId with
    | none => (none, pre ++ [Ev.trigger, Ev.monitor] ++ finallyEvents w releaseTag)
    | some _ =>
      if !w.downloadOk then
        (none, pre ++ [Ev.trigger, Ev.monitor, Ev.download] ++
               finallyEvents w releaseTag)
      else if !w.decryptOk then
        (none, pre ++ [Ev.trigger, Ev.monitor, Ev.download, Ev.decrypt] ++
               finallyEvents w releaseTag)
      else
        (some (withName input (bangName input.name)),
         pre ++ [Ev.trigger, Ev.monitor, Ev.download, Ev.decrypt,
                 Ev.restoreMeta w.restoreOk] ++
         finallyEvents w releaseTag)

/-- `GitHubBackend.execute`: the Python return value together with the
ordered trace of effects (the `finally` events close every trace). -/
def execute (w : ExecWorld) (input : VPath) : Option VPath × List Ev :=
  let pre := [Ev.sanitizeEncrypt]
  if !w.encryptOk then
    (none, pre ++ finallyEvents w none)
  else if w.payloadSize < SIZE_THRESHOLD_GIB then
    match w.releaseUploadTag with
    | none => (none, pre ++ [Ev.uploadRelease] ++ finallyEvents w none)
    | some tag => executeAfterUpload w input (pre ++ [Ev.uploadRelease]) (some tag)
  else if w.payloadSize < SIZE_THRESHOLD_GB then
    match w.tempshUrl with
    | none => (none, pre ++ [Ev.uploadTempsh] ++ finallyEvents w none)
    | some _ => executeAfterUpload w input (pre ++ [Ev.uploadTempsh]) none
  else
    (none, pre ++ finallyEvents w none)

/-- The release tag bound by a run of `execute`, if any: the release channel
must have been taken and its upload must have returned a tag. -/
def releaseTagOf (w : ExecWorld) : Option String :=
  if w.encryptOk && decide (w.payloadSize < SIZE_THRESHOLD_GIB) then
    w.releaseUploadTag
  else none

/-- Events standing for a call to a remote service (upload, dispatch,
listing/polling, download, remote deletions). -/
def isRemoteEv : Ev → Bool
  | .uploadRelease => true
  | .uploadTempsh => true
  | .trigger => true
  | .monitor => true
  | .download => true
  | .deleteRelease _ _ => true
  | .deleteTagRemote _ _ => true
  | _ => false

/-- Events performed by the cleanup coordinator for a release tag. -/
def isCleanupDelete : Ev → Bool
  | .deleteRelease _ _ => true
  | .deleteTagRemote _ _ => true
  | _ => false

/-! ## Auxiliary definitions used by the verification below: phase-event
classification, the world update replacing the cleanup-deletion outcomes, and
concrete sample worlds and inputs used to instantiate the theorems. -/

def isPhaseEv : Ev → Bool
  | .trigger => true
  | .monitor => true
  | .download => true
  | .decrypt => true
  | .restoreMeta _ => true
  | _ => false

/-- `w` with the two cleanup-deletion outcomes replaced. -/
def setDeleteOutcomes (w : ExecWorld) (b b' : Bool) : ExecWorld :=
  ⟨w.encryptOk, w.encryptedFileExists, w.payloadSize, w.releaseUploadTag, w.tempshUrl,
   w.triggerOk, w.monitorRaises, w.monitorRunId, w.downloadOk, w.decryptOk,
   w.restoreOk, b, b'⟩

def samplePath : VPath := ⟨["home", "user"], "video.mp4"⟩

/-- A world whose payload is 3 TB: the run must reject it. -/
def wTooLarge : ExecWorld :=
  ⟨true, true, 3000000000000, none, none, false, false, none, false, false, false,
   false, false⟩

def sampleFetch : Nat → Option (List RunDescriptor) :=
  fun n =>
    if n = 2 then
      some [⟨"Video Job old", "7"⟩, ⟨"Video Job tok1", "42"⟩, ⟨"Video Job tok1 bis", "43"⟩]
    else none

def locFetchNoMatch : Nat → Option (List RunDescriptor) :=
  fun _ => some [⟨"Video Job other", "9"⟩]

def wCleanup : ExecWorld :=
  ⟨true, true, 1000, some "temp-upload-ff", none, true, true, none, false, false,
   false, false, true⟩

def wLocTimeout : ExecWorld :=
  ⟨true, true, 1000, some "temp-upload-aa", none, true, false, none, true, true,
   true, true, true⟩

def sampleDlOutcome : Nat → CmdOutcome :=
  fun n => if n = 1 then .fails else .ok

def wTrigFail : ExecWorld :=
  ⟨true, true, 3000000000, none, some "https://temp.sh/abc", false, false, none,
   false, false, false, false, false⟩

def wAllOk : ExecWorld :=
  ⟨true, true, 1000000, some "temp-upload-cc", none, true, false, some "12345",
   true, true, true, true, true⟩

/-! ## Helper lemmas -/

theorem selectUploadChannel_spec (s : Nat) :
    (selectUploadChannel s = .releaseAsset ↔ s < 2147483648)
    ∧ (selectUploadChannel s = .directLink ↔ 2147483648 ≤ s ∧ s < 4294967296)
    ∧ (selectUploadChannel s = .payloadTooLarge ↔ 4294967296 ≤ s) := by
  unfold selectUploadChannel SIZE_THRESHOLD_GIB SIZE_THRESHOLD_GB
  split_ifs with h1 h2 <;> refine ⟨?_, ?_, ?_⟩ <;> simp <;> omega

theorem executeAfterUpload_shape (w : ExecWorld) (input : VPath) (pre : List Ev)
    (rt : Option String) :
    ∃ mid, (executeAfterUpload w input pre rt).2 = pre ++ (mid ++ finallyEvents w rt)
      ∧ mid.all isPhaseEv = true := by
  unfold executeAfterUpload
  by_cases h1 : w.triggerOk <;> by_cases h2 : w.monitorRaises <;>
    rcases hm : w.monitorRunId with _ | rid <;>
    by_cases h3 : w.downloadOk <;> by_cases h4 : w.decryptOk <;>
    simp [h1, h2, hm, h3, h4, isPhaseEv] <;>
    first
      | exact ⟨[Ev.trigger], rfl, by simp [isPhaseEv]⟩
      | exact ⟨[Ev.trigger, Ev.monitor], rfl, by simp [isPhaseEv]⟩
      | exact ⟨[Ev.trigger, Ev.monitor, Ev.download], rfl, by simp [isPhaseEv]⟩
      | exact ⟨[Ev.trigger, Ev.monitor, Ev.download, Ev.decrypt], rfl, by simp [isPhaseEv]⟩
      | exact ⟨[Ev.trigger, Ev.monitor, Ev.download, Ev.decrypt, Ev.restoreMeta w.restoreOk],
               rfl, by simp [isPhaseEv]⟩

theorem executeAfterUpload_result (w : ExecWorld) (input : VPath) (pre : List Ev)
    (rt : Option String) :
    (executeAfterUpload w input pre rt).1 =
      if w.triggerOk && !w.monitorRaises && w.monitorRunId.isSome
          && w.downloadOk && w.decryptOk
      then some (withName input (bangName input.name)) else none := by
  unfold executeAfterUpload
  by_cases h1 : w.triggerOk <;> by_cases h2 : w.monitorRaises <;>
    rcases hm : w.monitorRunId with _ | rid <;>
    by_cases h3 : w.downloadOk <;> by_cases h4 : w.decryptOk <;>
    simp [h1, h2, hm, h3, h4]

theorem executeAfterUpload_mem_pre (w : ExecWorld) (input : VPath) (pre : List Ev)
    (rt : Option String) (e : Ev) (he : e ∈ pre) :
    e ∈ (executeAfterUpload w input pre rt).2 := by
  obtain ⟨mid, hmid, -⟩ := executeAfterUpload_shape w input pre rt
  rw [hmid]; exact List.mem_append_left _ he

theorem executeAfterUpload_mem_cases (w : ExecWorld) (input : VPath) (pre : List Ev)
    (rt : Option String) (e : Ev) (he : e ∈ (executeAfterUpload w input pre rt).2) :
    e ∈ pre ∨ isPhaseEv e = true ∨ e ∈ finallyEvents w rt := by
  obtain ⟨mid, hmid, hall⟩ := executeAfterUpload_shape w input pre rt
  rw [hmid] at he
  rcases List.mem_append.1 he with h | h
  · exact .inl h
  rcases List.mem_append.1 h with h | h
  · exact .inr (.inl (by simpa using List.all_eq_true.1 hall e h))
  · exact .inr (.inr h)

theorem finallyEvents_mem (w : ExecWorld) (rt : Option String) (e : Ev)
    (he : e ∈ finallyEvents w rt) :
    e = Ev.unlinkEncrypted ∨ isCleanupDelete e = true := by
  unfold finallyEvents cleanupGithubRelease at he
  rcases rt with _ | tag <;> by_cases hx : w.encryptedFileExists <;>
    simp [hx] at he <;>
    first
      | (left; exact he)
      | (rcases he with h | h | h <;> simp [h, isCleanupDelete])
      | (rcases he with h | h <;> simp [h, isCleanupDelete])

theorem finallyEvents_no_upload (w : ExecWorld) (rt : Option String) :
    Ev.uploadRelease ∉ finallyEvents w rt ∧ Ev.uploadTempsh ∉ finallyEvents w rt := by
  constructor <;> intro h <;> rcases finallyEvents_mem w rt _ h with h' | h' <;>
    simp [isCleanupDelete] at h'

theorem finallyEvents_none_mem (w : ExecWorld) (e : Ev)
    (he : e ∈ finallyEvents w none) : e = Ev.unlinkEncrypted := by
  unfold finallyEvents cleanupGithubRelease at he
  by_cases hx : w.encryptedFileExists
  · simp [hx] at he; exact he
  · simp [hx] at he

theorem finallyEvents_mem_exact (w : ExecWorld) (rt : Option String) (e : Ev)
    (he : e ∈ finallyEvents w rt) :
    e = Ev.unlinkEncrypted
    ∨ ∃ t, rt = some t ∧
        (e = Ev.deleteRelease t w.deleteReleaseOk
          ∨ e = Ev.deleteTagRemote t w.deleteTagOk) := by
  unfold finallyEvents cleanupGithubRelease at he
  rcases rt with _ | tag
  · by_cases hx : w.encryptedFileExists
    · simp [hx] at he; exact .inl he
    · simp [hx] at he
  · by_cases hx : w.encryptedFileExists
    · simp [hx] at he
      rcases he with h | h | h
      · exact .inl h
      · exact .inr ⟨tag, rfl, .inl h⟩
      · exact .inr ⟨tag, rfl, .inr h⟩
    · simp [hx] at he
      rcases he with h | h
      · exact .inr ⟨tag, rfl, .inl h⟩
      · exact .inr ⟨tag, rfl, .inr h⟩

theorem mem_finallyEvents_deletes (w : ExecWorld) (t : String) :
    Ev.deleteRelease t w.deleteReleaseOk ∈ finallyEvents w (some t)
    ∧ Ev.deleteTagRemote t w.deleteTagOk ∈ finallyEvents w (some t) := by
  unfold finallyEvents cleanupGithubRelease
  by_cases hx : w.encryptedFileExists <;> simp [hx]

theorem finallyEvents_filter_not (w : ExecWorld) (rt : Option String) (p : Ev → Bool)
    (hp1 : p Ev.unlinkEncrypted = false)
    (hp2 : ∀ t b, p (Ev.deleteRelease t b) = false)
    (hp3 : ∀ t b, p (Ev.deleteTagRemote t b) = false) :
    (finallyEvents w rt).filter p = [] := by
  unfold finallyEvents cleanupGithubRelease
  rcases rt with _ | tag <;> by_cases hx : w.encryptedFileExists <;>
    simp [hx, hp1, hp2, hp3]

theorem finallyEvents_none_filter (w : ExecWorld) (p : Ev → Bool)
    (hp : p Ev.unlinkEncrypted = false) : (finallyEvents w none).filter p = [] := by
  unfold finallyEvents cleanupGithubRelease
  by_cases hx : w.encryptedFileExists <;> simp [hx, hp]

theorem executeAfterUpload_mem_finally (w : ExecWorld) (input : VPath) (pre : List Ev)
    (rt : Option String) (e : Ev) (he : e ∈ finallyEvents w rt) :
    e ∈ (executeAfterUpload w input pre rt).2 := by
  obtain ⟨mid, hmid, -⟩ := executeAfterUpload_shape w input pre rt
  rw [hmid]
  exact List.mem_append_right _ (List.mem_append_right _ he)

theorem executeAfterUpload_trigger_failed (w : ExecWorld) (input : VPath)
    (pre : List Ev) (rt : Option String) (htr : w.triggerOk = false) :
    executeAfterUpload w input pre rt =
      (none, pre ++ [Ev.trigger] ++ finallyEvents w rt) := by
  unfold executeAfterUpload; rw [htr]; rfl

theorem executeAfterUpload_monitor_none (w : ExecWorld) (input : VPath)
    (pre : List Ev) (rt : Option String) (htr : w.triggerOk = true)
    (hmr : w.monitorRaises = false) (hmon : w.monitorRunId = none) :
    executeAfterUpload w input pre rt =
      (none, pre ++ [Ev.trigger, Ev.monitor] ++ finallyEvents w rt) := by
  unfold executeAfterUpload; rw [htr, hmr, hmon]; rfl

theorem executeAfterUpload_success (w : ExecWorld) (input : VPath)
    (pre : List Ev) (rt : Option String) (htr : w.triggerOk = true)
    (hmr : w.monitorRaises = false) (rid : String) (hmon : w.monitorRunId = some rid)
    (hdl : w.downloadOk = true) (hdec : w.decryptOk = true) :
    executeAfterUpload w input pre rt =
      (some (withName input (bangName input.name)),
       pre ++ [Ev.trigger, Ev.monitor, Ev.download, Ev.decrypt,
               Ev.restoreMeta w.restoreOk] ++ finallyEvents w rt) := by
  unfold executeAfterUpload; rw [htr, hmr, hmon, hdl, hdec]; rfl

theorem execute_eq_release (w : ExecWorld) (input : VPath) (henc : w.encryptOk = true)
    (hs : w.payloadSize < SIZE_THRESHOLD_GIB) (tag : String)
    (hrel : w.releaseUploadTag = some tag) :
    execute w input =
      executeAfterUpload w input [Ev.sanitizeEncrypt, Ev.uploadRelease] (some tag) := by
  unfold execute; simp [henc, hs, hrel]

theorem execute_eq_release_failed (w : ExecWorld) (input : VPath)
    (henc : w.encryptOk = true) (hs : w.payloadSize < SIZE_THRESHOLD_GIB)
    (hrel : w.releaseUploadTag = none) :
    execute w input =
      (none, [Ev.sanitizeEncrypt, Ev.uploadRelease] ++ finallyEvents w none) := by
  unfold execute; simp [henc, hs, hrel]

theorem execute_eq_tempsh (w : ExecWorld) (input : VPath) (henc : w.encryptOk = true)
    (hs1 : ¬ w.payloadSize < SIZE_THRESHOLD_GIB) (hs2 : w.payloadSize < SIZE_THRESHOLD_GB)
    (url : String) (hurl : w.tempshUrl = some url) :
    execute w input =
      executeAfterUpload w input [Ev.sanitizeEncrypt, Ev.uploadTempsh] none := by
  unfold execute; simp [henc, hs1, hs2, hurl]

theorem execute_eq_tempsh_failed (w : ExecWorld) (input : VPath)
    (henc : w.encryptOk = true)
    (hs1 : ¬ w.payloadSize < SIZE_THRESHOLD_GIB) (hs2 : w.payloadSize < SIZE_THRESHOLD_GB)
    (hurl : w.tempshUrl = none) :
    execute w input =
      (none, [Ev.sanitizeEncrypt, Ev.uploadTempsh] ++ finallyEvents w none) := by
  unfold execute; simp [henc, hs1, hs2, hurl]

theorem execute_eq_toolarge (w : ExecWorld) (input : VPath) (henc : w.encryptOk = true)
    (hs : SIZE_THRESHOLD_GB ≤ w.payloadSize) :
    execute w input = (none, [Ev.sanitizeEncrypt] ++ finallyEvents w none) := by
  have h1 : ¬ w.payloadSize < SIZE_THRESHOLD_GIB := by
    unfold SIZE_THRESHOLD_GIB; unfold SIZE_THRESHOLD_GB at hs; omega
  have h2 : ¬ w.payloadSize < SIZE_THRESHOLD_GB := Nat.not_lt.2 hs
  unfold execute
  simp [henc, h1, h2]

theorem execute_eq_encrypt_failed (w : ExecWorld) (input : VPath)
    (henc : w.encryptOk = false) :
    execute w input = (none, [Ev.sanitizeEncrypt] ++ finallyEvents w none) := by
  unfold execute; simp [henc]

theorem mem_uploadRelease_iff (w : ExecWorld) (input : VPath) (henc : w.encryptOk = true) :
    Ev.uploadRelease ∈ (execute w input).2 ↔ w.payloadSize < SIZE_THRESHOLD_GIB := by
  rcases Nat.lt_or_ge w.payloadSize SIZE_THRESHOLD_GIB with hA | hA
  · simp only [hA, iff_true]
    rcases hrel : w.releaseUploadTag with _ | tag
    · rw [execute_eq_release_failed w input henc hA hrel]; simp
    · rw [execute_eq_release w input henc hA tag hrel]
      exact executeAfterUpload_mem_pre _ _ _ _ _ (by simp)
  · have hA' : ¬ w.payloadSize < SIZE_THRESHOLD_GIB := Nat.not_lt.2 hA
    simp only [hA', iff_false]
    intro hmem
    rcases Nat.lt_or_ge w.payloadSize SIZE_THRESHOLD_GB with hB | hC
    · rcases hurl : w.tempshUrl with _ | url
      · rw [execute_eq_tempsh_failed w input henc hA' hB hurl] at hmem
        rcases List.mem_append.1 hmem with h | h
        · simp at h
        · exact (finallyEvents_no_upload w none).1 h
      · rw [execute_eq_tempsh w input henc hA' hB url hurl] at hmem
        rcases executeAfterUpload_mem_cases _ _ _ _ _ hmem with h | h | h
        · simp at h
        · simp [isPhaseEv] at h
        · exact (finallyEvents_no_upload w none).1 h
    · rw [execute_eq_toolarge w input henc hC] at hmem
      rcases List.mem_append.1 hmem with h | h
      · simp at h
      · exact (finallyEvents_no_upload w none).1 h

theorem mem_uploadTempsh_iff (w : ExecWorld) (input : VPath) (henc : w.encryptOk = true) :
    Ev.uploadTempsh ∈ (execute w input).2 ↔
      SIZE_THRESHOLD_GIB ≤ w.payloadSize ∧ w.payloadSize < SIZE_THRESHOLD_GB := by
  rcases Nat.lt_or_ge w.payloadSize SIZE_THRESHOLD_GIB with hA | hA
  · have : ¬ (SIZE_THRESHOLD_GIB ≤ w.payloadSize ∧ w.payloadSize < SIZE_THRESHOLD_GB) := by
      intro h; exact absurd hA (Nat.not_lt.2 h.1)
    simp only [this, iff_false]
    intro hmem
    rcases hrel : w.releaseUploadTag with _ | tag
    · rw [execute_eq_release_failed w input henc hA hrel] at hmem
      rcases List.mem_append.1 hmem with h | h
      · simp at h
      · exact (finallyEvents_no_upload w none).2 h
    · rw [execute_eq_release w input henc hA tag hrel] at hmem
      rcases executeAfterUpload_mem_cases _ _ _ _ _ hmem with h | h | h
      · simp at h
      · simp [isPhaseEv] at h
      · exact (finallyEvents_no_upload w (some tag)).2 h
  · have hA' : ¬ w.payloadSize < SIZE_THRESHOLD_GIB := Nat.not_lt.2 hA
    rcases Nat.lt_or_ge w.payloadSize SIZE_THRESHOLD_GB with hB | hC
    · simp only [hA, hB, and_true, iff_true]
      rcases hurl : w.tempshUrl with _ | url
      · rw [execute_eq_tempsh_failed w input henc hA' hB hurl]; simp
      · rw [execute_eq_tempsh w input henc hA' hB url hurl]
        exact executeAfterUpload_mem_pre _ _ _ _ _ (by simp)
    · have : ¬ (SIZE_THRESHOLD_GIB ≤ w.payloadSize ∧ w.payloadSize < SIZE_THRESHOLD_GB) := by
        intro h; exact absurd hC (Nat.not_le.2 h.2)
      simp only [this, iff_false]
      intro hmem
      rw [execute_eq_toolarge w input henc hC] at hmem
      rcases List.mem_append.1 hmem with h | h
      · simp at h
      · exact (finallyEvents_no_upload w none).2 h

theorem execute_fst_setDeleteOutcomes (w : ExecWorld) (input : VPath) (b b' : Bool) :
    (execute (setDeleteOutcomes w b b') input).1 = (execute w input).1 := by
  by_cases h1 : w.encryptOk <;>
    by_cases h2 : w.payloadSize < SIZE_THRESHOLD_GIB <;>
    by_cases h3 : w.payloadSize < SIZE_THRESHOLD_GB <;>
    rcases hr : w.releaseUploadTag with _ | tag <;>
    rcases hu : w.tempshUrl with _ | url <;>
    simp [execute, setDeleteOutcomes, h1, h2, h3, hr, hu, executeAfterUpload_result]

theorem execute_fst_shape (w : ExecWorld) (input : VPath) :
    (execute w input).1 = none
    ∨ (execute w input).1 = some (withName input (bangName input.name)) := by
  by_cases h1 : w.encryptOk <;>
    by_cases h2 : w.payloadSize < SIZE_THRESHOLD_GIB <;>
    by_cases h3 : w.payloadSize < SIZE_THRESHOLD_GB <;>
    rcases hr : w.releaseUploadTag with _ | tag <;>
    rcases hu : w.tempshUrl with _ | url <;>
    simp [execute, h1, h2, h3, hr, hu, executeAfterUpload_result] <;>
    (rcases hm : w.monitorRunId with _ | rid <;>
      by_cases t1 : w.triggerOk <;> by_cases t2 : w.monitorRaises <;>
      by_cases t4 : w.downloadOk <;> by_cases t5 : w.decryptOk <;>
      simp [hm, t1, t2, t4, t5])

theorem locateFrom_sound (uuid : String) (fetch : Nat → Option (List RunDescriptor))
    (a k : Nat) (id : String)
    (h : (locateFrom uuid fetch a k).1 = some id) :
    ∃ n runs r, fetch n = some runs
      ∧ runs.find? (fun d => nameContains d.name uuid) = some r
      ∧ r.id = id ∧ nameContains r.name uuid = true := by
  induction k generalizing a with
  | zero => simp [locateFrom] at h
  | succ k ih =>
    unfold locateFrom at h
    rcases hf : fetch a with _ | runs
    · simp only [hf] at h
      exact ih (a + 1) h
    · simp only [hf] at h
      rcases hm : findMatchingId uuid runs with _ | mid
      · simp only [hm] at h
        exact ih (a + 1) h
      · simp only [hm] at h
        simp at h
        subst h
        unfold findMatchingId at hm
        rcases hfind : runs.find? (fun d => nameContains d.name uuid) with _ | r
        · rw [hfind] at hm; simp at hm
        · rw [hfind] at hm
          simp at hm
          exact ⟨a, runs, r, hf, hfind, hm, by simpa using List.find?_some hfind⟩

theorem locateFrom_nomatch (uuid : String) (fetch : Nat → Option (List RunDescriptor))
    (hnm : ∀ n runs, fetch n = some runs → findMatchingId uuid runs = none)
    (a k : Nat) : locateFrom uuid fetch a k = (none, k) := by
  induction k generalizing a with
  | zero => rfl
  | succ k ih =>
    unfold locateFrom
    rcases hf : fetch a with _ | runs
    · simp [ih (a + 1)]
    · simp [hnm a runs hf, ih (a + 1)]

/-! ## The claims -/

/-- C1: the upload strategy selector chooses the release-asset channel iff the
payload size is below 2^31 bytes, the temp.sh direct-link channel iff the size
is in [2^31, 2^32), and for 2^32 or more bytes the run fails (PayloadTooLarge)
with no upload attempted and no further remote call of any kind. -/
theorem upload_selector_thresholds (w : ExecWorld) (input : VPath)
    (henc : w.encryptOk = true) :
    (selectUploadChannel w.payloadSize = .releaseAsset ↔ w.payloadSize < 2147483648)
    ∧ (selectUploadChannel w.payloadSize = .directLink ↔
        2147483648 ≤ w.payloadSize ∧ w.payloadSize < 4294967296)
    ∧ (selectUploadChannel w.payloadSize = .payloadTooLarge ↔ 4294967296 ≤ w.payloadSize)
    ∧ (Ev.uploadRelease ∈ (execute w input).2 ↔ w.payloadSize < 2147483648)
    ∧ (Ev.uploadTempsh ∈ (execute w input).2 ↔
        2147483648 ≤ w.payloadSize ∧ w.payloadSize < 4294967296)
    ∧ (4294967296 ≤ w.payloadSize →
        (execute w input).1 = none ∧ ∀ e ∈ (execute w input).2, isRemoteEv e = false) := by
  obtain ⟨s1, s2, s3⟩ := selectUploadChannel_spec w.payloadSize
  refine ⟨s1, s2, s3, mem_uploadRelease_iff w input henc,
    mem_uploadTempsh_iff w input henc, ?_⟩
  intro hbig
  have hC : SIZE_THRESHOLD_GB ≤ w.payloadSize := hbig
  rw [execute_eq_toolarge w input henc hC]
  refine ⟨rfl, ?_⟩
  intro e he
  rcases List.mem_append.1 he with h | h
  · simp at h; subst h; rfl
  · rw [finallyEvents_none_mem w e h]; rfl

theorem upload_selector_thresholds_witness :
    wTooLarge.encryptOk = true ∧
    ((selectUploadChannel wTooLarge.payloadSize = .releaseAsset ↔
        wTooLarge.payloadSize < 2147483648)
    ∧ (selectUploadChannel wTooLarge.payloadSize = .directLink ↔
        2147483648 ≤ wTooLarge.payloadSize ∧ wTooLarge.payloadSize < 4294967296)
    ∧ (selectUploadChannel wTooLarge.payloadSize = .payloadTooLarge ↔
        4294967296 ≤ wTooLarge.payloadSize)
    ∧ (Ev.uploadRelease ∈ (execute wTooLarge samplePath).2 ↔
        wTooLarge.payloadSize < 2147483648)
    ∧ (Ev.uploadTempsh ∈ (execute wTooLarge samplePath).2 ↔
        2147483648 ≤ wTooLarge.payloadSize ∧ wTooLarge.payloadSize < 4294967296)
    ∧ (4294967296 ≤ wTooLarge.payloadSize →
        (execute wTooLarge samplePath).1 = none
        ∧ ∀ e ∈ (execute wTooLarge samplePath).2, isRemoteEv e = false)) :=
  ⟨rfl, upload_selector_thresholds wTooLarge samplePath rfl⟩

/-- C2: whenever the locator binds a run id, that id is the id of a descriptor
returned by some listing whose name contains the correlation uuid, and it is
the first matching descriptor of that listing. -/
theorem locator_binds_first_match (uuid : String)
    (fetch : Nat → Option (List RunDescriptor)) (id : String)
    (h : (locateRun uuid fetch).1 = some id) :
    ∃ n runs r, fetch n = some runs
      ∧ runs.find? (fun d => nameContains d.name uuid) = some r
      ∧ r.id = id ∧ nameContains r.name uuid = true :=
  locateFrom_sound uuid fetch 1 max_find_attempts id h

theorem locator_binds_first_match_witness :
    (locateRun "tok1" sampleFetch).1 = some "42" ∧
    ∃ n runs r, sampleFetch n = some runs
      ∧ runs.find? (fun d => nameContains d.name "tok1") = some r
      ∧ r.id = "42" ∧ nameContains r.name "tok1" = true :=
  ⟨by decide, locator_binds_first_match "tok1" sampleFetch "42" (by decide)⟩

/-- C3: transient fetch errors never change the poller's behaviour: any finite
number of them followed by a completed/success snapshot yields overall success
(the run id is returned, no failure is ever reported mid-sequence), a leading
transient error leaves the poll result unchanged (no retry budget), and
transient errors alone never terminate the polling loop. -/
theorem poller_absorbs_transient_errors (runId : String) (n : Nat)
    (rest : List StatusFetch) :
    pollStatus runId
        (List.replicate n .transientError ++ [.snapshot "completed" "success"])
      = some (some runId)
    ∧ pollStatus runId (.transientError :: rest) = pollStatus runId rest
    ∧ pollStatus runId (List.replicate n .transientError) = none := by
  refine ⟨?_, rfl, ?_⟩
  · induction n with
    | zero => simp [pollStatus]
    | succ k ih => simpa [List.replicate_succ, pollStatus] using ih
  · induction n with
    | zero => rfl
    | succ k ih => simpa [List.replicate_succ, pollStatus] using ih

/-- C4: whenever a release tag was bound during the run, the trace contains
the attempt to delete the release and the attempt to delete the remote tag —
on every exit path, whatever the outcomes of the later phases (including an
exception) — the two deletion attempts are made independently of each other's
outcome, and replacing the deletion outcomes never changes the run's
result. -/
theorem cleanup_runs_on_every_exit_path (w : ExecWorld) (input : VPath) (t : String)
    (hrt : releaseTagOf w = some t) (b b' : Bool) :
    Ev.deleteRelease t w.deleteReleaseOk ∈ (execute w input).2
    ∧ Ev.deleteTagRemote t w.deleteTagOk ∈ (execute w input).2
    ∧ (execute (setDeleteOutcomes w b b') input).1 = (execute w input).1 := by
  have hparse : w.encryptOk = true ∧ w.payloadSize < SIZE_THRESHOLD_GIB
      ∧ w.releaseUploadTag = some t := by
    unfold releaseTagOf at hrt
    split_ifs at hrt with h1
    simp only [Bool.and_eq_true, decide_eq_true_eq] at h1
    exact ⟨h1.1, h1.2, hrt⟩
  obtain ⟨henc, hsz, hrel⟩ := hparse
  refine ⟨?_, ?_, execute_fst_setDeleteOutcomes w input b b'⟩ <;>
    rw [execute_eq_release w input henc hsz t hrel]
  · exact executeAfterUpload_mem_finally w input _ _ _ (mem_finallyEvents_deletes w t).1
  · exact executeAfterUpload_mem_finally w input _ _ _ (mem_finallyEvents_deletes w t).2

theorem cleanup_runs_on_every_exit_path_witness :
    releaseTagOf wCleanup = some "temp-upload-ff" ∧
    (Ev.deleteRelease "temp-upload-ff" wCleanup.deleteReleaseOk
        ∈ (execute wCleanup samplePath).2
    ∧ Ev.deleteTagRemote "temp-upload-ff" wCleanup.deleteTagOk
        ∈ (execute wCleanup samplePath).2
    ∧ (execute (setDeleteOutcomes wCleanup true false) samplePath).1
        = (execute wCleanup samplePath).1) :=
  ⟨by decide,
   cleanup_runs_on_every_exit_path wCleanup samplePath "temp-upload-ff" (by decide)
     true false⟩

/-- C5: if no listing ever contains a matching descriptor, the locator makes
exactly 24 listing calls (no fewer, no more) and reports the locate timeout
(`None`); the orchestrator then fails the run without invoking the artifact
retriever, performing only the cleanup deletions. -/
theorem locator_exhausts_24_attempts (uuid : String)
    (fetch : Nat → Option (List RunDescriptor))
    (hnm : ∀ n runs, fetch n = some runs → findMatchingId uuid runs = none)
    (w : ExecWorld) (input : VPath) (henc : w.encryptOk = true)
    (hs : w.payloadSize < SIZE_THRESHOLD_GIB) (tag : String)
    (hrel : w.releaseUploadTag = some tag)
    (htr : w.triggerOk = true) (hmr : w.monitorRaises = false)
    (hmon : w.monitorRunId = none) :
    locateRun uuid fetch = (none, 24)
    ∧ (execute w input).1 = none
    ∧ Ev.download ∉ (execute w input).2
    ∧ Ev.deleteRelease tag w.deleteReleaseOk ∈ (execute w input).2
    ∧ Ev.deleteTagRemote tag w.deleteTagOk ∈ (execute w input).2 := by
  refine ⟨locateFrom_nomatch uuid fetch hnm 1 24, ?_, ?_, ?_, ?_⟩ <;>
    rw [execute_eq_release w input henc hs tag hrel,
      executeAfterUpload_monitor_none w input _ _ htr hmr hmon]
  · intro hd
    have hd' : Ev.download ∈ [Ev.sanitizeEncrypt, Ev.uploadRelease] ++
        ([Ev.trigger, Ev.monitor] ++ finallyEvents w (some tag)) := hd
    rcases List.mem_append.1 hd' with h | h
    · simp at h
    · rcases List.mem_append.1 h with h2 | h2
      · simp at h2
      · rcases finallyEvents_mem_exact w (some tag) _ h2 with h' | ⟨t, _, h' | h'⟩ <;>
          simp at h'
  · show Ev.deleteRelease tag w.deleteReleaseOk ∈
      [Ev.sanitizeEncrypt, Ev.uploadRelease] ++
        ([Ev.trigger, Ev.monitor] ++ finallyEvents w (some tag))
    exact List.mem_append_right _
      (List.mem_append_right _ (mem_finallyEvents_deletes w tag).1)
  · show Ev.deleteTagRemote tag w.deleteTagOk ∈
      [Ev.sanitizeEncrypt, Ev.uploadRelease] ++
        ([Ev.trigger, Ev.monitor] ++ finallyEvents w (some tag))
    exact List.mem_append_right _
      (List.mem_append_right _ (mem_finallyEvents_deletes w tag).2)

theorem locator_exhausts_24_attempts_witness :
    locateRun "tokZ" locFetchNoMatch = (none, 24)
    ∧ (execute wLocTimeout samplePath).1 = none
    ∧ Ev.download ∉ (execute wLocTimeout samplePath).2
    ∧ Ev.deleteRelease "temp-upload-aa" wLocTimeout.deleteReleaseOk
        ∈ (execute wLocTimeout samplePath).2
    ∧ Ev.deleteTagRemote "temp-upload-aa" wLocTimeout.deleteTagOk
        ∈ (execute wLocTimeout samplePath).2 :=
  locator_exhausts_24_attempts "tokZ" locFetchNoMatch
    (fun n runs h => by
      have h' : some [RunDescriptor.mk "Video Job other" "9"] = some runs := h
      obtain rfl : [RunDescriptor.mk "Video Job other" "9"] = runs :=
        Option.some.inj h'
      decide)
    wLocTimeout samplePath rfl (by decide) "temp-upload-aa" rfl rfl rfl rfl

/-- C6: the artifact retriever unlinks the target file before every download
attempt, makes at most 3 attempts, sleeps 5 s after the first failure and
doubles the delay after each further failed attempt, returns the target path
iff one of the (at most three) attempts succeeds, and returns `none`
(ArtifactUnavailable) exactly when all three attempts fail. -/
theorem artifact_retriever_retries_with_backoff (base : String)
    (outcome : Nat → CmdOutcome) (hm : ∀ i, outcome i ≠ .missing) :
    ((downloadArtifact base outcome).1 = some (downloadTarget base) ↔
      (outcome 1 = .ok ∨ outcome 2 = .ok ∨ outcome 3 = .ok))
    ∧ ((downloadArtifact base outcome).1 = none ↔
        (outcome 1 = .fails ∧ outcome 2 = .fails ∧ outcome 3 = .fails))
    ∧ deleteBeforeEachDownload (downloadArtifact base outcome).2 = true
    ∧ downloadCount (downloadArtifact base outcome).2 ≤ 3
    ∧ (outcome 1 = .fails ∧ outcome 2 = .fails ∧ outcome 3 = .fails →
        downloadCount (downloadArtifact base outcome).2 = 3)
    ∧ sleepDelays (downloadArtifact base outcome).2
        = (List.range (sleepDelays (downloadArtifact base outcome).2).length).map
            (fun k => base_delay * 2 ^ k) := by
  rcases o1 : outcome 1 with _ | _ | _
  · simp [downloadArtifact, downloadFrom, max_retries, base_delay, o1, downloadCount,
      deleteBeforeEachDownload, sleepDelays, List.range]
    decide
  · rcases o2 : outcome 2 with _ | _ | _
    · simp [downloadArtifact, downloadFrom, max_retries, base_delay, o1, o2,
        downloadCount, deleteBeforeEachDownload, sleepDelays, List.range]
      decide
    · rcases o3 : outcome 3 with _ | _ | _
      · simp [downloadArtifact, downloadFrom, max_retries, base_delay, o1, o2, o3,
          downloadCount, deleteBeforeEachDownload, sleepDelays, List.range]
        decide
      · simp [downloadArtifact, downloadFrom, max_retries, base_delay, o1, o2, o3,
          downloadCount, deleteBeforeEachDownload, sleepDelays, List.range]
        decide
      · exact absurd o3 (hm 3)
    · exact absurd o2 (hm 2)
  · exact absurd o1 (hm 1)

theorem artifact_retriever_retries_with_backoff_witness :
    (∀ i, sampleDlOutcome i ≠ CmdOutcome.missing) ∧
    (((downloadArtifact "abc123" sampleDlOutcome).1
        = some (downloadTarget "abc123") ↔
      (sampleDlOutcome 1 = .ok ∨ sampleDlOutcome 2 = .ok ∨ sampleDlOutcome 3 = .ok))
    ∧ ((downloadArtifact "abc123" sampleDlOutcome).1 = none ↔
        (sampleDlOutcome 1 = .fails ∧ sampleDlOutcome 2 = .fails
          ∧ sampleDlOutcome 3 = .fails))
    ∧ deleteBeforeEachDownload (downloadArtifact "abc123" sampleDlOutcome).2 = true
    ∧ downloadCount (downloadArtifact "abc123" sampleDlOutcome).2 ≤ 3
    ∧ (sampleDlOutcome 1 = .fails ∧ sampleDlOutcome 2 = .fails
        ∧ sampleDlOutcome 3 = .fails →
        downloadCount (downloadArtifact "abc123" sampleDlOutcome).2 = 3)
    ∧ sleepDelays (downloadArtifact "abc123" sampleDlOutcome).2
        = (List.range
            (sleepDelays (downloadArtifact "abc123" sampleDlOutcome).2).length).map
            (fun k => base_delay * 2 ^ k)) :=
  ⟨fun i => by unfold sampleDlOutcome; split_ifs <;> simp,
   artifact_retriever_retries_with_backoff "abc123" sampleDlOutcome
     (fun i => by unfold sampleDlOutcome; split_ifs <;> simp)⟩

/-- C7: when the dispatch call errors, `_trigger_workflow_run` makes exactly
one dispatch call and returns failure (no retry); the orchestrator then
returns failure without invoking the monitor (locator/poller), the artifact
retriever or the decrypter — the trigger call is the only phase event — and
when no release tag was bound the cleanup performs no deletion (no-op). -/
theorem trigger_rejected_short_circuits (w : ExecWorld) (input : VPath)
    (henc : w.encryptOk = true)
    (hup : (w.payloadSize < SIZE_THRESHOLD_GIB ∧ w.releaseUploadTag.isSome = true)
        ∨ (¬ w.payloadSize < SIZE_THRESHOLD_GIB ∧ w.payloadSize < SIZE_THRESHOLD_GB
            ∧ w.tempshUrl.isSome = true))
    (htr : w.triggerOk = false) (ht hu : Bool) (hchan : (ht || hu) = true) :
    (triggerWorkflowRun ht hu .fails).1 = false
    ∧ (triggerWorkflowRun ht hu .fails).2 = [TrEvent.dispatch]
    ∧ (execute w input).1 = none
    ∧ (execute w input).2.filter isPhaseEv = [Ev.trigger]
    ∧ (releaseTagOf w = none → (execute w input).2.filter isCleanupDelete = []) := by
  have htrig : triggerWorkflowRun ht hu .fails = (false, [TrEvent.dispatch]) := by
    unfold triggerWorkflowRun; rw [hchan]; rfl
  have hfin : ∀ rt, (finallyEvents w rt).filter isPhaseEv = [] := fun rt =>
    finallyEvents_filter_not w rt isPhaseEv rfl (fun _ _ => rfl) (fun _ _ => rfl)
  rcases hup with ⟨hsz, hsome⟩ | ⟨hsz1, hsz2, hsome⟩
  · rcases hr : w.releaseUploadTag with _ | tag
    · rw [hr] at hsome; simp at hsome
    · rw [execute_eq_release w input henc hsz tag hr,
        executeAfterUpload_trigger_failed w input _ _ htr]
      refine ⟨by rw [htrig], by rw [htrig], rfl, ?_, ?_⟩
      · show ([Ev.sanitizeEncrypt, Ev.uploadRelease] ++
            ([Ev.trigger] ++ finallyEvents w (some tag))).filter isPhaseEv = [Ev.trigger]
        simp [List.filter_append, isPhaseEv, hfin (some tag)]
      · intro hnone
        rw [releaseTagOf, if_pos (by simp [henc, hsz]), hr] at hnone
        simp at hnone
  · rcases hu' : w.tempshUrl with _ | url
    · rw [hu'] at hsome; simp at hsome
    · rw [execute_eq_tempsh w input henc hsz1 hsz2 url hu',
        executeAfterUpload_trigger_failed w input _ _ htr]
      refine ⟨by rw [htrig], by rw [htrig], rfl, ?_, ?_⟩
      · show ([Ev.sanitizeEncrypt, Ev.uploadTempsh] ++
            ([Ev.trigger] ++ finallyEvents w none)).filter isPhaseEv = [Ev.trigger]
        simp [List.filter_append, isPhaseEv, hfin none]
      · intro _
        show ([Ev.sanitizeEncrypt, Ev.uploadTempsh] ++
            ([Ev.trigger] ++ finallyEvents w none)).filter isCleanupDelete = []
        simp [List.filter_append, isCleanupDelete, finallyEvents_none_filter w
          isCleanupDelete rfl]

theorem trigger_rejected_short_circuits_witness :
    (triggerWorkflowRun false true .fails).1 = false
    ∧ (triggerWorkflowRun false true .fails).2 = [TrEvent.dispatch]
    ∧ (execute wTrigFail samplePath).1 = none
    ∧ (execute wTrigFail samplePath).2.filter isPhaseEv = [Ev.trigger]
    ∧ (releaseTagOf wTrigFail = none →
        (execute wTrigFail samplePath).2.filter isCleanupDelete = []) :=
  trigger_rejected_short_circuits wTrigFail samplePath rfl
    (Or.inr ⟨by decide, by decide, rfl⟩) rfl false true rfl

/-- C8: when every phase succeeds the orchestrator returns the decrypted file
path — the original input with `!` inserted between its stem and its
extension, in the input's directory — and on every world it returns either
that success value or the failure signal `none`: no error ever escapes as
anything else. -/
theorem orchestrator_final_path (input : VPath) (w w' : ExecWorld)
    (henc : w.encryptOk = true)
    (hup : (w.payloadSize < SIZE_THRESHOLD_GIB ∧ w.releaseUploadTag.isSome = true)
        ∨ (¬ w.payloadSize < SIZE_THRESHOLD_GIB ∧ w.payloadSize < SIZE_THRESHOLD_GB
            ∧ w.tempshUrl.isSome = true))
    (htr : w.triggerOk = true) (hmr : w.monitorRaises = false)
    (hmon : w.monitorRunId.isSome = true) (hdl : w.downloadOk = true)
    (hdec : w.decryptOk = true) :
    (execute w input).1
      = some (withName input (pyStem input.name ++ "!" ++ pySuffix input.name))
    ∧ ((execute w' input).1 = none
        ∨ (execute w' input).1
            = some (withName input (pyStem input.name ++ "!" ++ pySuffix input.name))) := by
  have hbang : bangName input.name = pyStem input.name ++ "!" ++ pySuffix input.name := rfl
  constructor
  · rcases hm : w.monitorRunId with _ | rid
    · rw [hm] at hmon; simp at hmon
    · rcases hup with ⟨hsz, hsome⟩ | ⟨hsz1, hsz2, hsome⟩
      · rcases hr : w.releaseUploadTag with _ | tag
        · rw [hr] at hsome; simp at hsome
        · rw [execute_eq_release w input henc hsz tag hr,
            executeAfterUpload_success w input _ _ htr hmr rid hm hdl hdec]
          rw [← hbang]
      · rcases hu : w.tempshUrl with _ | url
        · rw [hu] at hsome; simp at hsome
        · rw [execute_eq_tempsh w input henc hsz1 hsz2 url hu,
            executeAfterUpload_success w input _ _ htr hmr rid hm hdl hdec]
          rw [← hbang]
  · rw [← hbang]
    exact execute_fst_shape w' input

theorem orchestrator_final_path_witness :
    (execute wAllOk samplePath).1
      = some (withName samplePath
          (pyStem samplePath.name ++ "!" ++ pySuffix samplePath.name))
    ∧ ((execute wLocTimeout samplePath).1 = none
        ∨ (execute wLocTimeout samplePath).1
            = some (withName samplePath
                (pyStem samplePath.name ++ "!" ++ pySuffix samplePath.name))) :=
  orchestrator_final_path samplePath wAllOk wLocTimeout rfl
    (Or.inl ⟨by decide, rfl⟩) rfl rfl rfl rfl rfl

/-- C9: the decrypt operation deletes the encrypted input file on every path
(success, gpg failure, or missing tool) before returning, returns the target
path exactly on success, and returns `none` on both failure modes. -/
theorem decrypt_always_deletes_encrypted (encrypted decrypted : String)
    (outcome : CmdOutcome) (fs : List String) :
    encrypted ∉ (decrypt_file encrypted decrypted outcome fs).2
    ∧ ((decrypt_file encrypted decrypted outcome fs).1 = some decrypted ↔
        outcome = .ok)
    ∧ ((decrypt_file encrypted decrypted outcome fs).1 = none ↔ outcome ≠ .ok) := by
  rcases outcome <;>
    simp [decrypt_file, List.mem_filter]

/-- C10: when `git tag` succeeded but the tag push, the release creation or
the asset upload errors, the release-channel upload itself deletes the local
tag and the remote tag before returning failure. -/
theorem failed_upload_deletes_own_tag (tag : String)
    (tagPush releaseCreate assetUpload : CmdOutcome)
    (h : tagPush = .fails
      ∨ (tagPush = .ok ∧ releaseCreate = .fails)
      ∨ (tagPush = .ok ∧ releaseCreate = .ok ∧ assetUpload = .fails)) :
    (uploadViaGithubRelease tag .ok tagPush releaseCreate assetUpload).1 = none
    ∧ UpEvent.gitTagDeleteLocal tag
        ∈ (uploadViaGithubRelease tag .ok tagPush releaseCreate assetUpload).2
    ∧ UpEvent.gitTagDeleteRemote tag
        ∈ (uploadViaGithubRelease tag .ok tagPush releaseCreate assetUpload).2 := by
  rcases h with h | ⟨h1, h2⟩ | ⟨h1, h2, h3⟩ <;> subst_vars <;>
    simp [uploadViaGithubRelease]

theorem failed_upload_deletes_own_tag_witness :
    ((CmdOutcome.ok = CmdOutcome.fails
      ∨ (CmdOutcome.ok = CmdOutcome.ok ∧ CmdOutcome.fails = CmdOutcome.fails)
      ∨ (CmdOutcome.ok = CmdOutcome.ok ∧ CmdOutcome.fails = CmdOutcome.ok
          ∧ CmdOutcome.ok = CmdOutcome.fails))
    ∧ (uploadViaGithubRelease "temp-upload-ab12" .ok .ok .fails .ok).1 = none
    ∧ UpEvent.gitTagDeleteLocal "temp-upload-ab12"
        ∈ (uploadViaGithubRelease "temp-upload-ab12" .ok .ok .fails .ok).2
    ∧ UpEvent.gitTagDeleteRemote "temp-upload-ab12"
        ∈ (uploadViaGithubRelease "temp-upload-ab12" .ok .ok .fails .ok).2) :=
  ⟨Or.inr (Or.inl ⟨rfl, rfl⟩),
    failed_upload_deletes_own_tag "temp-upload-ab12" .ok .fails .ok
      (Or.inr (Or.inl ⟨rfl, rfl⟩))⟩

end Vucar
